import Mathlib

/-!
Verification development for the awql-parser repository: a shallow embedding
of the lexer (scanner), the recursive-descent parser and the formatter, with
theorems checking the specification's claims against the code.

The scanner is embedded over `List Char` (the buffered reader with one-rune
pushback is modelled structurally: `read` takes the head, `unread` is simply
not consuming it).  The parser is embedded over an explicit parser state
holding the remaining token stream and the one-token pushback buffer exactly
as in the Go struct (`buf.t`, `buf.l`, `buf.n`).  Loops in the Go code are
embedded with an explicit fuel argument; fuel exhaustion yields an error, so
it can never fabricate a successful parse.
-/

namespace Awql

/-- Token kinds (token.go).  The enum in src/token.go is an older revision
missing the kinds the scanner and parser use (STRING, DIGIT, DECIMAL,
VALUE_LITERAL, the list kinds, SEMICOLON, G_MODIFIER and several keywords);
the union of the kinds used across the sources is embedded here.  Only the
zero value matters positionally: ILLEGAL is the zero value in Go, returned
by the naked returns in the scanner. -/
inductive Token where
  | ILLEGAL
  | EOF
  | IDENTIFIER
  | WHITE_SPACE
  | STRING
  | DIGIT
  | DECIMAL
  | VALUE_LITERAL
  | STRING_LIST
  | VALUE_LITERAL_LIST
  | ASTERISK
  | COMMA
  | SEMICOLON
  | LEFT_PARENTHESIS
  | RIGHT_PARENTHESIS
  | LEFT_SQUARE_BRACKETS
  | RIGHT_SQUARE_BRACKETS
  | G_MODIFIER
  | EQUAL
  | DIFFERENT
  | SUPERIOR
  | SUPERIOR_OR_EQUAL
  | INFERIOR
  | INFERIOR_OR_EQUAL
  | IN
  | NOT_IN
  | STARTS_WITH
  | STARTS_WITH_IGNORE_CASE
  | CONTAINS
  | CONTAINS_IGNORE_CASE
  | DOES_NOT_CONTAIN
  | DOES_NOT_CONTAIN_IGNORE_CASE
  | SELECT
  | DESC
  | DESCRIBE
  | CREATE
  | REPLACE
  | VIEW
  | SHOW
  | FULL
  | TABLES
  | DISTINCT
  | AS
  | FROM
  | WHERE
  | LIKE
  | WITH
  | AND
  | OR
  | DURING
  | GROUP
  | ORDER
  | BY
  | ASC
  | LIMIT
  deriving DecidableEq, Repr

/-- Character class: space, tab or newline (isWhitespace in the scanner). -/
def isWhitespaceC (c : Char) : Bool :=
  c = ' ' || c = Char.ofNat 9 || c = Char.ofNat 10

/-- Character class: single or double quote (isQuote). -/
def isQuoteC (c : Char) : Bool :=
  c = Char.ofNat 34 || c = Char.ofNat 39

/-- Character class: ASCII digit (isDigit). -/
def isDigitC (c : Char) : Bool :=
  Char.ofNat 48 ≤ c && c ≤ Char.ofNat 57

/-- Character class: ASCII letter (isLetter). -/
def isLetterC (c : Char) : Bool :=
  (Char.ofNat 97 ≤ c && c ≤ Char.ofNat 122) || (Char.ofNat 65 ≤ c && c ≤ Char.ofNat 90)

/-- Character class: literal rune a-zA-Z0-9_ (isLiteral). -/
def isLiteralC (c : Char) : Bool :=
  c = '_' || isDigitC c || isLetterC c

/-- Character class: value literal rune a-zA-Z0-9_. (isValueLiteral). -/
def isValueLiteralC (c : Char) : Bool :=
  c = '.' || isLiteralC c

/-- ASCII upper-casing of a string (strings.ToUpper for the characters the
grammar can produce). -/
def goToUpper (s : String) : String :=
  (s.toList.map Char.toUpper).asString

/-- The digits of a list of digit characters read as a number. -/
def natOfDigits (cs : List Char) : Nat :=
  cs.foldl (fun a c => a * 10 + (c.toNat - 48)) 0

/-- Leap year rule used by Go's time package. -/
def isLeapYear (y : Nat) : Bool :=
  y % 4 = 0 && (y % 100 ≠ 0 || y % 400 = 0)

/-- Number of days of month m in year y. -/
def daysInMonth (y m : Nat) : Nat :=
  if m = 2 then (if isLeapYear y then 29 else 28)
  else if m = 4 || m = 6 || m = 9 || m = 11 then 30
  else 31

/-- isDate: embeds the scanner helper calling Go's
time.Parse with layout 20060102, which succeeds exactly on 8-digit strings
whose 4-digit year, 2-digit month and 2-digit day form a real calendar
date. -/
def isDate (s : String) : Bool :=
  let cs := s.toList
  if cs.length = 8 && cs.all isDigitC then
    let y := natOfDigits (cs.take 4)
    let m := natOfDigits ((cs.drop 4).take 2)
    let d := natOfDigits (cs.drop 6)
    1 ≤ m && m ≤ 12 && 1 ≤ d && d ≤ daysInMonth y m
  else false

/-- isDateRangeLiteral: the fixed named date ranges. -/
def isDateRangeLiteral (s : String) : Bool :=
  s = "TODAY" || s = "YESTERDAY" ||
  s = "THIS_WEEK_SUN_TODAY" || s = "THIS_WEEK_MON_TODAY" ||
  s = "LAST_WEEK" || s = "LAST_7_DAYS" || s = "LAST_14_DAYS" ||
  s = "LAST_30_DAYS" || s = "LAST_BUSINESS_WEEK" ||
  s = "LAST_WEEK_SUN_SAT" || s = "THIS_MONTH"

/-- isFunction: the five aggregate function names, case-insensitively. -/
def isFunction (s : String) : Bool :=
  goToUpper s = "AVG" || goToUpper s = "COUNT" || goToUpper s = "MAX" ||
  goToUpper s = "MIN" || goToUpper s = "SUM"

/-- isOperator: the condition operators. -/
def isOperator (tk : Token) : Bool :=
  match tk with
  | .EQUAL | .DIFFERENT | .SUPERIOR | .SUPERIOR_OR_EQUAL
  | .INFERIOR | .INFERIOR_OR_EQUAL | .IN | .NOT_IN
  | .STARTS_WITH | .STARTS_WITH_IGNORE_CASE
  | .CONTAINS | .CONTAINS_IGNORE_CASE
  | .DOES_NOT_CONTAIN | .DOES_NOT_CONTAIN_IGNORE_CASE => true
  | _ => false

/-- strconv.Atoi succeeding: an optional sign followed by at least one
digit. Returns the parsed integer on success. -/
def goAtoiOpt (s : String) : Option Int :=
  match s.toList with
  | [] => none
  | '-' :: rest =>
    if rest ≠ [] && rest.all isDigitC then some (-(natOfDigits rest : Int)) else none
  | '+' :: rest =>
    if rest ≠ [] && rest.all isDigitC then some ((natOfDigits rest : Int)) else none
  | l =>
    if l.all isDigitC then some ((natOfDigits l : Int)) else none

/-- strconv.Atoi with the error discarded, as the parser does: the Go call
returns 0 together with the error on malformed input. -/
def goAtoi (s : String) : Int :=
  (goAtoiOpt s).getD 0

/-- strconv.ParseFloat succeeding on a string made only of digits and dots
(the only strings scanNumber can hand it): at least one digit and at most
one dot. -/
def goParseFloatOk (cs : List Char) : Bool :=
  cs.any isDigitC && (cs.filter (fun c => c = '.')).length ≤ 1

/- ===================== Scanner (over List Char) ===================== -/

/-- Body of the scanQuotedString loop, after the opening quote q has been
consumed.  Mirrors the Go loop exactly: every read rune is written to the
buffer first; a backslash additionally protects (and writes) the next rune;
the loop stops successfully right after writing the closing quote; reaching
the end of input returns the zero values, i.e. no string token. -/
def scanQS (q : Char) : List Char → Option (List Char × List Char)
  | [] => none
  | c :: cs =>
    if c = Char.ofNat 92 then
      match cs with
      | [] => none
      | d :: cs' =>
        match scanQS q cs' with
        | none => none
        | some (l, r) => some (c :: d :: l, r)
    else if c = q then some ([c], cs)
    else
      match scanQS q cs with
      | none => none
      | some (l, r) => some (c :: l, r)

/-- scanQuotedString: reads the opening quote (consuming it without adding
it to the buffer); on a non-quote first rune or on end of input before the
closing quote the Go naked return yields the zero values (ILLEGAL, ""). -/
def scanQuotedString (cs : List Char) : (Token × String) × List Char :=
  match cs with
  | [] => ((Token.ILLEGAL, ""), [])
  | c :: cs' =>
    if isQuoteC c then
      match scanQS c cs' with
      | some (l, r) => ((Token.STRING, l.asString), r)
      | none => ((Token.ILLEGAL, ""), [])
    else ((Token.ILLEGAL, ""), cs')

/-- scanWhitespace: consume the maximal run of whitespace. -/
def scanWhitespace (cs : List Char) : (Token × String) × List Char :=
  ((Token.WHITE_SPACE, (cs.takeWhile isWhitespaceC).asString),
   cs.dropWhile isWhitespaceC)

/-- Keyword table of scanIdentifier: the upper-cased text against the
reserved words, anything else being an identifier. -/
def keywordTok (up : String) : Token :=
  if up = "DESCRIBE" then .DESCRIBE
  else if up = "SELECT" then .SELECT
  else if up = "CREATE" then .CREATE
  else if up = "REPLACE" then .REPLACE
  else if up = "VIEW" then .VIEW
  else if up = "SHOW" then .SHOW
  else if up = "FULL" then .FULL
  else if up = "TABLES" then .TABLES
  else if up = "DISTINCT" then .DISTINCT
  else if up = "AS" then .AS
  else if up = "FROM" then .FROM
  else if up = "WHERE" then .WHERE
  else if up = "LIKE" then .LIKE
  else if up = "WITH" then .WITH
  else if up = "AND" then .AND
  else if up = "OR" then .OR
  else if up = "IN" then .IN
  else if up = "NOT_IN" then .NOT_IN
  else if up = "STARTS_WITH" then .STARTS_WITH
  else if up = "STARTS_WITH_IGNORE_CASE" then .STARTS_WITH_IGNORE_CASE
  else if up = "CONTAINS" then .CONTAINS
  else if up = "CONTAINS_IGNORE_CASE" then .CONTAINS_IGNORE_CASE
  else if up = "DOES_NOT_CONTAIN" then .DOES_NOT_CONTAIN
  else if up = "DOES_NOT_CONTAIN_IGNORE_CASE" then .DOES_NOT_CONTAIN_IGNORE_CASE
  else if up = "DURING" then .DURING
  else if up = "GROUP" then .GROUP
  else if up = "ORDER" then .ORDER
  else if up = "BY" then .BY
  else if up = "ASC" then .ASC
  else if up = "DESC" then .DESC
  else if up = "LIMIT" then .LIMIT
  else .IDENTIFIER

/-- scanIdentifier: the first rune plus the maximal run of literal runes;
keyword lookup on the upper-cased text, the literal keeping the original
case. -/
def scanIdentifier (cs : List Char) : (Token × String) × List Char :=
  match cs with
  | [] => ((Token.IDENTIFIER, ""), [])
  | c :: cs' =>
    let run := c :: cs'.takeWhile isLiteralC
    let rest := cs'.dropWhile isLiteralC
    ((keywordTok (goToUpper run.asString), run.asString), rest)

/-- scanNumber: the maximal run of digits and dots; DIGIT if it is an
integer, DECIMAL if it is a float, otherwise the zero values (ILLEGAL with
an empty literal, per the Go naked return). -/
def scanNumber (cs : List Char) : (Token × String) × List Char :=
  let run := cs.takeWhile (fun c => isDigitC c || c = '.')
  let rest := cs.dropWhile (fun c => isDigitC c || c = '.')
  if run ≠ [] && run.all isDigitC then ((Token.DIGIT, run.asString), rest)
  else if goParseFloatOk run then ((Token.DECIMAL, run.asString), rest)
  else ((Token.ILLEGAL, ""), rest)

/-- scanValueLiteral: the maximal run of value literal runes. -/
def scanValueLiteralS (cs : List Char) : (Token × String) × List Char :=
  ((Token.VALUE_LITERAL, (cs.takeWhile isValueLiteralC).asString),
   cs.dropWhile isValueLiteralC)

/-- Loop body of the scanner's scanList: tag the list STRING_LIST or
VALUE_LITERAL_LIST on the first element, ILLEGAL when the kinds are mixed,
the input ends before the closing bracket, or a rune that is not a comma,
whitespace or element appears. -/
def scanListLoop (fuel : Nat) (tk : Token) (acc : List String) (cs : List Char) :
    (Token × List String) × List Char :=
  match fuel with
  | 0 => ((tk, acc), cs)
  | fuel + 1 =>
    match cs with
    | [] => ((Token.ILLEGAL, acc), [])
    | c :: cs' =>
      if isQuoteC c then
        if tk = Token.VALUE_LITERAL_LIST then ((Token.ILLEGAL, acc), c :: cs')
        else
          let ((_, lit), rest) := scanQuotedString (c :: cs')
          scanListLoop fuel Token.STRING_LIST (acc ++ [lit]) rest
      else if isLiteralC c then
        if tk = Token.STRING_LIST then ((Token.ILLEGAL, acc), c :: cs')
        else
          let ((_, lit), rest) := scanValueLiteralS (c :: cs')
          scanListLoop fuel Token.VALUE_LITERAL_LIST (acc ++ [lit]) rest
      else if c = ']' then ((tk, acc), cs')
      else if c = ',' || isWhitespaceC c then scanListLoop fuel tk acc cs'
      else ((Token.ILLEGAL, acc), c :: cs')

/-- scanList of the scanner: consumes a whole bracketed list.  Note the Go
source declares Scan as returning (Token, string) while scanList returns
(Token, list of strings); the two revisions spliced in the repository do
not type-check together, so the list payload is kept here and the caller
below drops it. -/
def scanListS (cs : List Char) : (Token × List String) × List Char :=
  match cs with
  | [] => ((Token.ILLEGAL, []), [])
  | c :: cs' =>
    if c = '[' then scanListLoop (cs'.length + 1) Token.ILLEGAL [] cs'
    else ((Token.ILLEGAL, []), cs')

/-- Scan: one step of the scanner. -/
def Scan (cs : List Char) : (Token × String) × List Char :=
  match cs with
  | [] => ((Token.EOF, ""), [])
  | c :: cs' =>
    if isWhitespaceC c then scanWhitespace (c :: cs')
    else if isQuoteC c then scanQuotedString (c :: cs')
    else if c = '[' then
      let ((tk, _), rest) := scanListS (c :: cs')
      ((tk, ""), rest)
    else if isLetterC c then scanIdentifier (c :: cs')
    else if isDigitC c then scanNumber (c :: cs')
    else if c = '*' then ((Token.ASTERISK, "*"), cs')
    else if c = ',' then ((Token.COMMA, ","), cs')
    else if c = '(' then ((Token.LEFT_PARENTHESIS, "("), cs')
    else if c = ')' then ((Token.RIGHT_PARENTHESIS, ")"), cs')
    else if c = '=' then ((Token.EQUAL, "="), cs')
    else if c = '!' then
      match cs' with
      | '=' :: cs'' => ((Token.DIFFERENT, "!="), cs'')
      | _ => ((Token.ILLEGAL, "!"), cs')
    else if c = '>' then
      match cs' with
      | '=' :: cs'' => ((Token.SUPERIOR_OR_EQUAL, ">="), cs'')
      | _ => ((Token.SUPERIOR, ">"), cs')
    else if c = '<' then
      match cs' with
      | '=' :: cs'' => ((Token.INFERIOR_OR_EQUAL, "<="), cs'')
      | _ => ((Token.INFERIOR, "<"), cs')
    else ((Token.ILLEGAL, String.mk [c]), cs')

/-- A scanned token together with its literal text. -/
structure TokLit where
  t : Token
  l : String
  deriving DecidableEq, Repr

/-- Run the scanner to the end of input, collecting the tokens before EOF. -/
def scanAll (fuel : Nat) (cs : List Char) : List TokLit :=
  match fuel with
  | 0 => []
  | fuel + 1 =>
    let ((tk, lit), rest) := Scan cs
    if tk = Token.EOF then []
    else ⟨tk, lit⟩ :: scanAll fuel rest

end Awql

namespace Awql

/- ===================== AST (statement.go) ===================== -/

/-- Column: a name plus optional alias. -/
structure Column where
  ColumnName : String := ""
  ColumnAlias : String := ""
  deriving DecidableEq, Repr

/-- ColumnPosition: a column with its 1-based position in the query. -/
structure ColumnPosition where
  Col : Column := {}
  Position : Int := 0
  deriving DecidableEq, Repr

/-- Field: a selected column with an optional aggregate method and a
distinct flag. -/
structure Field where
  Col : Column := {}
  Method : String := ""
  Distinct : Bool := false
  deriving DecidableEq, Repr

/-- Condition: a where clause entry. -/
structure Condition where
  Col : Column := {}
  Operator : String := ""
  Value : List String := []
  IsValueLiteral : Bool := false
  deriving DecidableEq, Repr

/-- Pattern: a LIKE clause decomposition.  The second field embeds the Go
struct's field named for a leading-wildcard-free prefix string. -/
structure Pattern where
  Equal : String := ""
  PrefValue : String := ""
  Contains : String := ""
  Suffix : String := ""
  deriving DecidableEq, Repr

/-- Ordering: an order by entry. -/
structure Ordering where
  ColPos : ColumnPosition := {}
  SortDesc : Bool := false
  deriving DecidableEq, Repr

/-- Limit: offset, row count, and whether a row count was supplied. -/
structure Limit where
  Offset : Int := 0
  RowCount : Int := 0
  WithRowCount : Bool := false
  deriving DecidableEq, Repr

/-- SelectStatement with the embedded DataStatement, Statement and Limit
fields flattened, exactly the data the Go struct holds. -/
structure SelectStatement where
  Fields : List Field := []
  TableName : String := ""
  GModifier : Bool := false
  Where : List Condition := []
  During : List String := []
  GroupBy : List ColumnPosition := []
  OrderBy : List Ordering := []
  Offset : Int := 0
  RowCount : Int := 0
  WithRowCount : Bool := false
  deriving DecidableEq, Repr

/-- DescribeStatement. -/
structure DescribeStatement where
  Full : Bool := false
  Fields : List Field := []
  TableName : String := ""
  GModifier : Bool := false
  deriving DecidableEq, Repr

/-- ShowStatement. -/
structure ShowStatement where
  Full : Bool := false
  Like : Pattern := {}
  With : String := ""
  GModifier : Bool := false
  deriving DecidableEq, Repr

/-- CreateViewStatement. -/
structure CreateViewStatement where
  Fields : List Field := []
  TableName : String := ""
  GModifier : Bool := false
  Replace : Bool := false
  View : SelectStatement := {}
  deriving DecidableEq, Repr

/-- The statement union returned by Parse. -/
inductive Stmt where
  | selectS (s : SelectStatement)
  | describeS (d : DescribeStatement)
  | showS (s : ShowStatement)
  | createViewS (c : CreateViewStatement)
  deriving DecidableEq, Repr

/-- Parse errors: one constructor per message template of parser.go, the
payload being the text formatted into the template. -/
inductive ParseErr where
  | badStmt
  | missingSrc
  | badColumn (s : String)
  | badMethod (s : String)
  | badField (s : String)
  | badFunc (s : String)
  | badSrc (s : String)
  | badDuring (s : String)
  | badGroup (s : String)
  | badOrder (s : String)
  | badLimit (s : String)
  | synNear (s : String)
  deriving DecidableEq, Repr

/-- The formatted Go error string of an error value (fmt.Sprintf of the
template), needed where an inner error's text is embedded in an outer
message. -/
def errText : ParseErr → String
  | .badStmt => "ParserError.UNKWOWN_STATEMENT"
  | .missingSrc => "ParserError.MISSING_SOURCE"
  | .badColumn s => "ParserError.UNKNOWN_COLUMN (" ++ s ++ ")"
  | .badMethod s => "ParserError.INVALID_METHOD (" ++ s ++ ")"
  | .badField s => "ParserError.INVALID_FIELD (" ++ s ++ ")"
  | .badFunc s => "ParserError.INVALID_FUNCTION (" ++ s ++ ")"
  | .badSrc s => "ParserError.INVALID_SOURCE (" ++ s ++ ")"
  | .badDuring s => "ParserError.INVALID_DURING (" ++ s ++ ")"
  | .badGroup s => "ParserError.INVALID_GROUP_BY (" ++ s ++ ")"
  | .badOrder s => "ParserError.INVALID_ORDER_BY (" ++ s ++ ")"
  | .badLimit s => "ParserError.INVALID_LIMIT (" ++ s ++ ")"
  | .synNear s => "ParserError.SYNTAX_NEAR (" ++ s ++ ")"

/-- Go's fmt rendering of an int under a %s verb, as produced by the two
places that format an int into an error template. -/
def goFmtSInt (n : Int) : String :=
  "%!s(int=" ++ toString n ++ ")"

/- ===================== Parser state and primitives ===================== -/

/-- Parser state: the remaining token stream produced by the scanner plus
the one-token buffer of the Go Parser struct (buf.t, buf.l, buf.n). -/
structure PState where
  src : List TokLit := []
  bufT : Token := .ILLEGAL
  bufL : String := ""
  bufN : Nat := 0
  deriving DecidableEq, Repr

/-- A fresh parser over an already-scanned token stream. -/
def stateOf (l : List TokLit) : PState :=
  { src := l, bufT := .ILLEGAL, bufL := "", bufN := 0 }

/-- A fresh parser over a raw query: the scanner is run on demand in Go;
over a finite input this is the same as scanning everything first. -/
def mkState (q : String) : PState :=
  stateOf (scanAll (q.toList.length + 1) q.toList)

/-- scan: return the buffered token if one was unscanned, otherwise the
next token from the scanner (EOF once the input is exhausted), remembering
it in the buffer. -/
def scan (p : PState) : (Token × String) × PState :=
  if p.bufN ≠ 0 then ((p.bufT, p.bufL), { p with bufN := 0 })
  else
    match p.src with
    | [] => ((Token.EOF, ""), { p with bufT := .EOF, bufL := "", bufN := 0 })
    | tl :: rest => ((tl.t, tl.l), { src := rest, bufT := tl.t, bufL := tl.l, bufN := 0 })

/-- unscan: push the previously read token back onto the buffer. -/
def unscan (p : PState) : PState :=
  { p with bufN := 1 }

/-- scanIgnoreWhitespace: scan, and scan once more if the token was
whitespace. -/
def scanIgnoreWhitespace (p : PState) : (Token × String) × PState :=
  let ((tk, l), p') := scan p
  if tk = Token.WHITE_SPACE then scan p' else ((tk, l), p')

/-- scanQueryEnding: a vertical output marker (returning true for the
G modifier flag), a semicolon or the end of input end a statement; any
other token is a syntax error naming its literal.  The state is returned
in both cases; note the Go code performs no unscan on the failing path. -/
def scanQueryEnding (p : PState) : Except ParseErr Bool × PState :=
  let ((tk, lit), p') := scanIgnoreWhitespace p
  match tk with
  | .G_MODIFIER => (.ok true, p')
  | .SEMICOLON => (.ok false, p')
  | .EOF => (.ok false, p')
  | _ => (.error (.synNear lit), p')

/- ===================== Column search helpers ===================== -/

/-- searchColumnByPosition on the fields parsed so far. -/
def searchColumnByPosition (fields : List Field) (pos : Int) :
    Except ParseErr ColumnPosition :=
  if pos < 1 || pos > (fields.length : Int) then .error (.badColumn (goFmtSInt pos))
  else
    match fields.get? (pos - 1).toNat with
    | some f => .ok ⟨f.Col, pos⟩
    | none => .error (.badColumn (goFmtSInt pos))

/-- The by-name/alias part of searchColumn, with the running 1-based
index. -/
def searchColumnByName (expr : String) : List Field → Int → Except ParseErr ColumnPosition
  | [], _ => .error (.badColumn expr)
  | f :: fs, i =>
    if f.Col.ColumnName = expr || f.Col.ColumnAlias = expr then .ok ⟨f.Col, i⟩
    else searchColumnByName expr fs (i + 1)

/-- searchColumn: expressions that are integers search by position (any
failure reported with the expression text), anything else by column name
or alias. -/
def searchColumn (fields : List Field) (expr : String) : Except ParseErr ColumnPosition :=
  match goAtoiOpt expr with
  | some pos =>
    match searchColumnByPosition fields pos with
    | .ok c => .ok c
    | .error _ => .error (.badColumn expr)
  | none => searchColumnByName expr fields 1

end Awql

namespace Awql

/- ===================== Parser: SELECT clauses ===================== -/

/-- scanDistinct: the next non-whitespace token must be an identifier; it
becomes the column and the field is flagged distinct. -/
def scanDistinct (p : PState) (f : Field) : Except ParseErr (Field × PState) :=
  let ((tk, lit), p1) := scanIgnoreWhitespace p
  if tk ≠ Token.IDENTIFIER then .error (.badField lit)
  else .ok ({ f with Distinct := true, Col := { f.Col with ColumnName := lit } }, p1)

/-- Loop body of the parser's scanValueList.  The Go loop re-declares the
token variable inside the loop, so nothing it computes reaches the named
return value: the loop only accumulates the literals (commas included,
since the comma branch falls through to the append) and decides when to
stop. -/
def svlLoop (fuel : Nat) (p : PState) (acc : List String) : PState × List String :=
  match fuel with
  | 0 => (p, acc)
  | fuel + 1 =>
    let ((tk, lit), p1) := scanIgnoreWhitespace p
    match tk with
    | .EOF => (p1, acc)
    | .STRING => svlLoop fuel p1 (acc ++ [lit])
    | .VALUE_LITERAL => svlLoop fuel p1 (acc ++ [lit])
    | .IDENTIFIER => svlLoop fuel p1 (acc ++ [lit])
    | .RIGHT_SQUARE_BRACKETS => (p1, acc)
    | .COMMA => svlLoop fuel p1 (acc ++ [lit])
    | _ => (p1, acc)

/-- scanValueList of the parser: requires a left square bracket, then runs
the loop.  Because of the shadowed loop variable, the returned token is the
left square bracket itself whenever the list was entered. -/
def scanValueList (p : PState) : (Token × List String) × PState :=
  let ((tk0, _), p1) := scanIgnoreWhitespace p
  if tk0 ≠ Token.LEFT_SQUARE_BRACKETS then ((tk0, []), p1)
  else
    let (p2, list) := svlLoop (p1.src.length + 2) p1 []
    ((Token.LEFT_SQUARE_BRACKETS, list), p2)

/-- The value part of one WHERE condition (the switch over the token after
the operator): a quoted string (which the code flags as value literal), a
bare decimal/digit/value literal, or a bracketed list handed to
scanValueList and accepted only if it comes back tagged as a list. -/
def parseConditionValue (p : PState) (cond : Condition) :
    Except ParseErr (Condition × PState) :=
  let ((tk, lit), p1) := scanIgnoreWhitespace p
  match tk with
  | .STRING => .ok ({ cond with IsValueLiteral := true, Value := cond.Value ++ [lit] }, p1)
  | .DECIMAL => .ok ({ cond with Value := cond.Value ++ [lit] }, p1)
  | .DIGIT => .ok ({ cond with Value := cond.Value ++ [lit] }, p1)
  | .VALUE_LITERAL => .ok ({ cond with Value := cond.Value ++ [lit] }, p1)
  | .LEFT_SQUARE_BRACKETS =>
    let ((tkL, list), p2) := scanValueList (unscan p1)
    if tkL ≠ Token.VALUE_LITERAL_LIST && tkL ≠ Token.STRING_LIST then
      .error (.synNear lit)
    else if tkL = Token.STRING_LIST then
      .ok ({ cond with IsValueLiteral := true, Value := list }, p2)
    else .ok ({ cond with Value := list }, p2)
  | _ => .error (.synNear lit)

/-- One WHERE condition: column name, operator, value. -/
def parseCondition (p : PState) : Except ParseErr (Condition × PState) :=
  let ((tk, lit), p1) := scanIgnoreWhitespace p
  if tk ≠ Token.IDENTIFIER then .error (.badField lit)
  else
    let ((tk2, lit2), p2) := scanIgnoreWhitespace p1
    if ¬ isOperator tk2 then .error (.synNear lit2)
    else parseConditionValue p2 { Col := { ColumnName := lit }, Operator := lit2 }

/-- The AND-separated condition loop of the WHERE clause. -/
def whereLoop (fuel : Nat) (p : PState) (acc : List Condition) :
    Except ParseErr (List Condition × PState) :=
  match fuel with
  | 0 => .error (.synNear "")
  | fuel + 1 =>
    match parseCondition p with
    | .error e => .error e
    | .ok (cond, p1) =>
      let acc := acc ++ [cond]
      let ((tk, _), p2) := scanIgnoreWhitespace p1
      if tk = Token.AND then whereLoop fuel p2 acc
      else .ok (acc, unscan p2)

/-- The optional WHERE clause. -/
def parseWhereClause (fuel : Nat) (p : PState) :
    Except ParseErr (List Condition × PState) :=
  let ((tk, _), p1) := scanIgnoreWhitespace p
  if tk = Token.WHERE then whereLoop fuel p1 []
  else .ok ([], unscan p1)

/-- The comma-separated entry loop of the DURING clause: each entry is an
8-digit calendar date carried by a DIGIT token or a named range literal
carried by an IDENTIFIER token (which raises the literal flag). -/
def duringLoop (fuel : Nat) (p : PState) (acc : List String) (dateLit : Bool) :
    Except ParseErr (List String × Bool × PState) :=
  match fuel with
  | 0 => .error (.badDuring "")
  | fuel + 1 =>
    let ((tk, lit), p1) := scanIgnoreWhitespace p
    if tk = Token.DIGIT && isDate lit then
      let acc := acc ++ [lit]
      let ((tk2, _), p2) := scanIgnoreWhitespace p1
      if tk2 = Token.COMMA then duringLoop fuel p2 acc dateLit
      else .ok (acc, dateLit, unscan p2)
    else if tk = Token.IDENTIFIER && isDateRangeLiteral lit then
      let acc := acc ++ [lit]
      let ((tk2, _), p2) := scanIgnoreWhitespace p1
      if tk2 = Token.COMMA then duringLoop fuel p2 acc true
      else .ok (acc, true, unscan p2)
    else .error (.badDuring lit)

/-- The optional DURING clause with the bounds checks performed after the
loop. -/
def parseDuringClause (fuel : Nat) (p : PState) :
    Except ParseErr (List String × PState) :=
  let ((tk, _), p1) := scanIgnoreWhitespace p
  if tk = Token.DURING then
    match duringLoop fuel p1 [] false with
    | .error e => .error e
    | .ok (during, dateLit, p2) =>
      if during.length < 1 || during.length > 2 then
        .error (.badDuring "unexpected number of date range")
      else if during.length = 1 && ¬ dateLit then
        .error (.badDuring "expected date range literal")
      else if during.length = 2 && dateLit then
        .error (.badDuring "expected no literal date")
      else .ok (during, p2)
  else .ok ([], unscan p1)

/-- The comma-separated column loop of GROUP BY, resolving each reference
against the fields of the statement, wrapping resolution failures into the
group-by error. -/
def groupLoop (fuel : Nat) (p : PState) (fields : List Field)
    (acc : List ColumnPosition) : Except ParseErr (List ColumnPosition × PState) :=
  match fuel with
  | 0 => .error (.badGroup "")
  | fuel + 1 =>
    let ((tk, lit), p1) := scanIgnoreWhitespace p
    if tk ≠ Token.IDENTIFIER && tk ≠ Token.DIGIT then .error (.badGroup lit)
    else
      match searchColumn fields lit with
      | .error e => .error (.badGroup (errText e))
      | .ok cp =>
        let acc := acc ++ [cp]
        let ((tk2, _), p2) := scanIgnoreWhitespace p1
        if tk2 = Token.COMMA then groupLoop fuel p2 fields acc
        else .ok (acc, unscan p2)

/-- The optional GROUP BY clause. -/
def parseGroupClause (fuel : Nat) (p : PState) (fields : List Field) :
    Except ParseErr (List ColumnPosition × PState) :=
  let ((tk, _), p1) := scanIgnoreWhitespace p
  if tk = Token.GROUP then
    let ((tk2, lit2), p2) := scanIgnoreWhitespace p1
    if tk2 ≠ Token.BY then .error (.badGroup lit2)
    else groupLoop fuel p2 fields []
  else .ok ([], unscan p1)

/-- The comma-separated ordering loop of ORDER BY; a resolution failure is
returned as-is (unlike GROUP BY, which wraps it). -/
def orderLoop (fuel : Nat) (p : PState) (fields : List Field)
    (acc : List Ordering) : Except ParseErr (List Ordering × PState) :=
  match fuel with
  | 0 => .error (.badOrder "")
  | fuel + 1 =>
    let ((tk, lit), p1) := scanIgnoreWhitespace p
    if tk ≠ Token.IDENTIFIER && tk ≠ Token.DIGIT then .error (.badOrder lit)
    else
      match searchColumn fields lit with
      | .error e => .error e
      | .ok cp =>
        let ((tkD, _), pD) := scanIgnoreWhitespace p1
        let entry : Ordering := { ColPos := cp, SortDesc := tkD = Token.DESC }
        let pNext := if tkD = Token.DESC || tkD = Token.ASC then pD else unscan pD
        let acc := acc ++ [entry]
        let ((tk2, _), p2) := scanIgnoreWhitespace pNext
        if tk2 = Token.COMMA then orderLoop fuel p2 fields acc
        else .ok (acc, unscan p2)

/-- The optional ORDER BY clause. -/
def parseOrderClause (fuel : Nat) (p : PState) (fields : List Field) :
    Except ParseErr (List Ordering × PState) :=
  let ((tk, _), p1) := scanIgnoreWhitespace p
  if tk = Token.ORDER then
    let ((tk2, lit2), p2) := scanIgnoreWhitespace p1
    if tk2 ≠ Token.BY then .error (.badOrder lit2)
    else orderLoop fuel p2 fields []
  else .ok ([], unscan p1)

/-- The optional LIMIT clause: a first integer (the offset variable), and
optionally a comma and a second integer; with a single integer the value is
the row count and the offset stays 0.  The row-count flag is set as soon as
the first integer is read.  On a non-integer second argument the Go code
formats the (still zero) row count into the error with a %s verb. -/
def parseLimitClause (p : PState) : Except ParseErr (Limit × PState) :=
  let ((tk, _), p1) := scanIgnoreWhitespace p
  if tk = Token.LIMIT then
    let ((tk2, lit2), p2) := scanIgnoreWhitespace p1
    if tk2 ≠ Token.DIGIT then .error (.badLimit lit2)
    else
      let offset := goAtoi lit2
      let ((tk3, _), p3) := scanIgnoreWhitespace p2
      if tk3 = Token.COMMA then
        let ((tk4, lit4), p4) := scanIgnoreWhitespace p3
        if tk4 ≠ Token.DIGIT then .error (.badLimit (goFmtSInt 0))
        else .ok ({ Offset := offset, RowCount := goAtoi lit4, WithRowCount := true }, p4)
      else .ok ({ Offset := 0, RowCount := offset, WithRowCount := true }, unscan p3)
  else .ok ({}, unscan p1)

/-- The mandatory FROM clause: the FROM keyword (else the missing-source
error) and a bare identifier table name. -/
def parseFromClause (p : PState) : Except ParseErr (String × PState) :=
  let ((tk, _), p1) := scanIgnoreWhitespace p
  if tk ≠ Token.FROM then .error .missingSrc
  else
    let ((tk2, lit2), p2) := scanIgnoreWhitespace p1
    if tk2 ≠ Token.IDENTIFIER then .error (.badSrc lit2)
    else .ok (lit2, p2)

end Awql

namespace Awql

/-- The comma-separated field list loop of SELECT.  The Go loop reuses its
(tk, literal) variables: inside an aggregate call the literal is reassigned
to the argument's literal, and the bare (keyword-less) alias branch reads
the stale literal variable because the alias-scan discards its own literal.
fieldEnd below is the shared tail of the loop body (alias handling, append,
comma check) and closeFn the closing-parenthesis check of an aggregate
call, which errors precisely when it sees the right parenthesis and
otherwise leaves the read token consumed. -/
def parseFieldsLoop (fuel : Nat) (p : PState) (acc : List Field) :
    Except ParseErr (List Field × PState) :=
  match fuel with
  | 0 => .error (.badField "")
  | fuel + 1 =>
    let ((tk, lit), p1) := scanIgnoreWhitespace p
    let fieldEnd : Field → String → PState → Except ParseErr (List Field × PState) :=
      fun field litCur p2 =>
        let step : Field → PState → Except ParseErr (List Field × PState) :=
          fun field p3 =>
            let acc2 := acc ++ [field]
            let ((tkC, _), pC) := scanIgnoreWhitespace p3
            if tkC = Token.COMMA then parseFieldsLoop fuel pC acc2
            else .ok (acc2, unscan pC)
        let ((tkA, _), pA) := scanIgnoreWhitespace p2
        if tkA = Token.AS then
          let ((tkB, litB), pB) := scanIgnoreWhitespace pA
          if tkB ≠ Token.IDENTIFIER then .error (.badField litB)
          else step { field with Col := { field.Col with ColumnAlias := litB } } pB
        else if tkA = Token.IDENTIFIER then
          step { field with Col := { field.Col with ColumnAlias := litCur } } pA
        else step field (unscan pA)
    match tk with
    | .ASTERISK => fieldEnd { Col := { ColumnName := lit } } lit p1
    | .DISTINCT =>
      match scanDistinct p1 {} with
      | .error e => .error e
      | .ok (f, p2) => fieldEnd f lit p2
    | .IDENTIFIER =>
      let ((tkP, _), pP) := scan p1
      if tkP ≠ Token.LEFT_PARENTHESIS then
        fieldEnd { Col := { ColumnName := lit } } lit (unscan pP)
      else if ¬ isFunction lit then .error (.badFunc lit)
      else
        let f0 : Field := { Method := goToUpper lit }
        let ((tk2, lit2), p2) := scanIgnoreWhitespace pP
        let closeFn : Field → PState → Except ParseErr (List Field × PState) :=
          fun f p3 =>
            let ((tk3, _), p4) := scanIgnoreWhitespace p3
            if tk3 = Token.RIGHT_PARENTHESIS then .error (.badFunc lit2)
            else fieldEnd f lit2 p4
        match tk2 with
        | .ASTERISK =>
          if f0.Method ≠ "COUNT" then .error (.badMethod lit2)
          else closeFn { f0 with Col := { f0.Col with ColumnName := lit2 } } p2
        | .DISTINCT =>
          match scanDistinct p2 f0 with
          | .error e => .error e
          | .ok (f, p3) => closeFn f p3
        | .DIGIT =>
          match searchColumnByPosition acc (goAtoi lit2) with
          | .error _ => .error (.badMethod lit2)
          | .ok cp => closeFn { f0 with Col := cp.Col } p2
        | .IDENTIFIER => closeFn { f0 with Col := { f0.Col with ColumnName := lit2 } } p2
        | _ => .error (.badFunc lit2)
    | _ => .error (.badField lit)

/-- parseSelect: the SELECT keyword, the field list, FROM, and the optional
WHERE, DURING, GROUP BY, ORDER BY and LIMIT clauses, then the query
ending.  The Go function fills one statement value clause by clause; each
clause only writes its own fields, so the result is assembled at the
end from the clause outputs. -/
def parseSelect (p : PState) : Except ParseErr (SelectStatement × PState) :=
  let ((tk, lit), p0) := scanIgnoreWhitespace p
  if tk ≠ Token.SELECT then .error (.badMethod lit)
  else
    match parseFieldsLoop (p0.src.length + 2) p0 [] with
    | .error e => .error e
    | .ok (fields, pA) =>
      match parseFromClause pA with
      | .error e => .error e
      | .ok (tbl, pB) =>
        match parseWhereClause (pB.src.length + 2) pB with
        | .error e => .error e
        | .ok (conds, pC) =>
          match parseDuringClause (pC.src.length + 2) pC with
          | .error e => .error e
          | .ok (during, pD) =>
            match parseGroupClause (pD.src.length + 2) pD fields with
            | .error e => .error e
            | .ok (groups, pE) =>
              match parseOrderClause (pE.src.length + 2) pE fields with
              | .error e => .error e
              | .ok (orders, pF) =>
                match parseLimitClause pF with
                | .error e => .error e
                | .ok (lim, pG) =>
                  match scanQueryEnding pG with
                  | (.error e, _) => .error e
                  | (.ok g, pH) =>
                    .ok ({ Fields := fields, TableName := tbl, GModifier := g,
                           Where := conds, During := during, GroupBy := groups,
                           OrderBy := orders, Offset := lim.Offset,
                           RowCount := lim.RowCount,
                           WithRowCount := lim.WithRowCount }, pH)

/-- strings.HasPrefix of the one-character wildcard string. -/
def goHasLeadPct (s : String) : Bool :=
  match s.toList with
  | c :: _ => c = '%'
  | [] => false

/-- strings.HasSuffix of the one-character wildcard string. -/
def goHasTrailPct (s : String) : Bool :=
  match s.toList.getLast? with
  | some c => c = '%'
  | none => false

/-- strings.Trim with the wildcard cutset: remove every leading and
trailing percent sign. -/
def goTrimPct (s : String) : String :=
  ((((s.toList.dropWhile (fun c => c = '%')).reverse).dropWhile
      (fun c => c = '%')).reverse).asString

/-- strings.TrimPrefix of the one-character wildcard string. -/
def goTrimLeadPct (s : String) : String :=
  match s.toList with
  | c :: rest => if c = '%' then rest.asString else s
  | [] => s

/-- strings.TrimSuffix of the one-character wildcard string. -/
def goTrimTrailPct (s : String) : String :=
  if goHasTrailPct s then (s.toList.dropLast).asString else s

/-- The LIKE pattern decomposition of parseShow: both-ends wildcards give
Contains, none gives Equal, only leading gives Suffix, only trailing gives
the prefix field. -/
def likePattern (pat : String) : Pattern :=
  let wl := goHasLeadPct pat
  let wr := goHasTrailPct pat
  if wl = wr && wl = true then { Contains := goTrimPct pat }
  else if wl = wr && wl = false then { Equal := pat }
  else if wl then { Suffix := goTrimLeadPct pat }
  else { PrefValue := goTrimTrailPct pat }

/-- parseShow: SHOW, optional FULL, TABLES, and an optional LIKE (quoted
string only) or WITH (identifier or quoted string) clause, then the query
ending. -/
def parseShow (p : PState) : Except ParseErr (ShowStatement × PState) :=
  let ((tk, lit), p0) := scanIgnoreWhitespace p
  if tk ≠ Token.SHOW then .error (.badMethod lit)
  else
    let ((tkF, _), pF) := scanIgnoreWhitespace p0
    let full := tkF = Token.FULL
    let p1 := if tkF = Token.FULL then pF else unscan pF
    let ((tkT, litT), p2) := scanIgnoreWhitespace p1
    if tkT ≠ Token.TABLES then .error (.synNear litT)
    else
      let ((clause, _), p3) := scanIgnoreWhitespace p2
      let finish : ShowStatement → PState → Except ParseErr (ShowStatement × PState) :=
        fun stmt p4 =>
          match scanQueryEnding p4 with
          | (.error e, _) => .error e
          | (.ok g, p5) => .ok ({ stmt with GModifier := g }, p5)
      if clause = Token.LIKE || clause = Token.WITH then
        let ((tkP, pat), p4) := scanIgnoreWhitespace p3
        match tkP with
        | .IDENTIFIER =>
          if clause = Token.LIKE then .error (.synNear pat)
          else finish { Full := full, With := pat } p4
        | .STRING =>
          if clause = Token.LIKE then finish { Full := full, Like := likePattern pat } p4
          else finish { Full := full, With := pat } p4
        | _ => .error (.synNear pat)
      else finish { Full := full } (unscan p3)

/-- parseDescribe: DESC or DESCRIBE, optional FULL, the table name, an
optional single column name, then the query ending. -/
def parseDescribe (p : PState) : Except ParseErr (DescribeStatement × PState) :=
  let ((tk, lit), p0) := scanIgnoreWhitespace p
  if tk ≠ Token.DESC && tk ≠ Token.DESCRIBE then .error (.badMethod lit)
  else
    let ((tkF, _), pF) := scanIgnoreWhitespace p0
    let full := tkF = Token.FULL
    let p1 := if tkF = Token.FULL then pF else unscan pF
    let ((tkT, litT), p2) := scanIgnoreWhitespace p1
    if tkT ≠ Token.IDENTIFIER then .error (.badSrc litT)
    else
      let ((tkC, litC), p3) := scanIgnoreWhitespace p2
      let fields : List Field :=
        if tkC = Token.IDENTIFIER then [{ Col := { ColumnName := litC } }] else []
      let p4 := if tkC = Token.IDENTIFIER then p3 else unscan p3
      match scanQueryEnding p4 with
      | (.error e, _) => .error e
      | (.ok g, p5) =>
        .ok ({ Full := full, Fields := fields, TableName := litT, GModifier := g }, p5)

/-- The column list loop of CREATE VIEW.  As in the Go code, when the token
after a column is not a comma it is pushed back and the loop exits without
having consumed the closing parenthesis. -/
def cvColsLoop (fuel : Nat) (p : PState) (acc : List Field) :
    Except ParseErr (List Field × PState) :=
  match fuel with
  | 0 => .error (.badField "")
  | fuel + 1 =>
    let ((tk, lit), p1) := scanIgnoreWhitespace p
    if tk = Token.RIGHT_PARENTHESIS then .ok (acc, p1)
    else if tk = Token.IDENTIFIER then
      let acc := acc ++ [({ Col := { ColumnName := lit } } : Field)]
      let ((tk2, _), p2) := scanIgnoreWhitespace p1
      if tk2 ≠ Token.COMMA then .ok (acc, unscan p2)
      else cvColsLoop fuel p2 acc
    else .error (.badField lit)

/-- parseCreateView: CREATE, optional OR REPLACE, VIEW, the view name, an
optional parenthesised column list, AS and the inner SELECT statement (the
inner statement consumes the query ending). -/
def parseCreateView (p : PState) : Except ParseErr (CreateViewStatement × PState) :=
  let ((tk, lit), p0) := scanIgnoreWhitespace p
  if tk ≠ Token.CREATE then .error (.badMethod lit)
  else
    let ((tkO, _), pO) := scanIgnoreWhitespace p0
    let orBranch : Except ParseErr (Bool × PState) :=
      if tkO = Token.OR then
        let ((tkR, litR), pR) := scanIgnoreWhitespace pO
        if tkR ≠ Token.REPLACE then .error (.badMethod litR)
        else .ok (true, pR)
      else .ok (false, unscan pO)
    match orBranch with
    | .error e => .error e
    | .ok (rep, p1) =>
      let ((tkV, litV), p2) := scanIgnoreWhitespace p1
      if tkV ≠ Token.VIEW then .error (.synNear litV)
      else
        let ((tkN, litN), p3) := scanIgnoreWhitespace p2
        if tkN ≠ Token.IDENTIFIER then .error (.badSrc litN)
        else
          let ((tkL, _), p4) := scanIgnoreWhitespace p3
          let colsBranch : Except ParseErr (List Field × PState) :=
            if tkL = Token.LEFT_PARENTHESIS then cvColsLoop (p4.src.length + 2) p4 []
            else .ok ([], unscan p4)
          match colsBranch with
          | .error e => .error e
          | .ok (cols, p5) =>
            let ((tkA, litA), p6) := scanIgnoreWhitespace p5
            if tkA ≠ Token.AS then .error (.synNear litA)
            else
              match parseSelect p6 with
              | .error e => .error e
              | .ok (sel, p7) =>
                .ok ({ Fields := cols, TableName := litN, Replace := rep,
                       View := sel }, p7)

/-- The statement loop of Parse: dispatch on the first token of a
statement (pushing it back before entering the statement's grammar), and
after each statement read one token; stop at EOF.  As in the Go code the
non-EOF token is not pushed back before the next iteration. -/
def ParseLoop (fuel : Nat) (p : PState) (acc : List Stmt) :
    List Stmt × Option ParseErr :=
  match fuel with
  | 0 => (acc, some .badStmt)
  | fuel + 1 =>
    let ((tk, _), p1) := scanIgnoreWhitespace p
    let res : Except ParseErr (Stmt × PState) :=
      match tk with
      | .DESC | .DESCRIBE =>
        match parseDescribe (unscan p1) with
        | .error e => .error e
        | .ok (d, p') => .ok (.describeS d, p')
      | .CREATE =>
        match parseCreateView (unscan p1) with
        | .error e => .error e
        | .ok (c, p') => .ok (.createViewS c, p')
      | .SELECT =>
        match parseSelect (unscan p1) with
        | .error e => .error e
        | .ok (s, p') => .ok (.selectS s, p')
      | .SHOW =>
        match parseShow (unscan p1) with
        | .error e => .error e
        | .ok (s, p') => .ok (.showS s, p')
      | _ => .error .badStmt
    match res with
    | .error e => (acc, some e)
    | .ok (st, p2) =>
      let acc := acc ++ [st]
      let ((tk2, _), p3) := scanIgnoreWhitespace p2
      if tk2 = Token.EOF then (acc, none)
      else ParseLoop fuel p3 acc

/-- Parse: the multi-statement entry point, returning the statements read
so far together with the error, as the Go function does. -/
def Parse (p : PState) : List Stmt × Option ParseErr :=
  ParseLoop (p.src.length + 2) p []

end Awql

namespace Awql

/- ===================== Formatter (format.go) ===================== -/

/-- Modelled from the spec: the Name accessor used by the formatter on
fields and conditions (its implementation lives in the statement file of
the awqlparse revision, which is not among the sources); per the spec only
the bare column name is emitted. -/
def colName (c : Column) : String :=
  c.ColumnName

/-- strconv.Quote restricted to the characters the grammar produces: the
value is wrapped in double quotes, a backslash or double quote inside it
being escaped with a backslash (other characters of the inputs used here
need no escape sequence). -/
def goQuote (s : String) : String :=
  let esc := s.toList.foldr
    (fun c acc =>
      if c = Char.ofNat 34 || c = Char.ofNat 92 then Char.ofNat 92 :: c :: acc
      else c :: acc) []
  (Char.ofNat 34 :: esc ++ [Char.ofNat 34]).asString

/-- The comma-space separated column names of the select clause. -/
def fieldsText : List Field → String
  | [] => ""
  | [f] => colName f.Col
  | f :: fs => colName f.Col ++ ", " ++ fieldsText fs

/-- One value of a multi-value condition, quoted unless the condition is
flagged literal, with the separator the Go loop writes before it. -/
def valueItemText (lit : Bool) (first : Bool) (v : String) : String :=
  (if first then "" else " ,") ++ " " ++ (if lit then v else goQuote v)

/-- The bracketed rendering of a multi-value condition. -/
def valueListText (lit : Bool) : Bool → List String → String
  | _, [] => ""
  | first, v :: vs => valueItemText lit first v ++ valueListText lit false vs

/-- The rendering of one condition, per format.go: name, a space, the
operator, then either the bracketed list (more than one value) or the
single value, quoted unless flagged literal.  The Go code indexes the
first value directly; on an empty value list (a panic in Go) this renders
the empty string. -/
def conditionText (c : Condition) : String :=
  colName c.Col ++ " " ++ c.Operator ++
    (if c.Value.length > 1 then
      " [" ++ valueListText c.IsValueLiteral true c.Value ++ " ]"
    else
      match c.Value with
      | [] => ""
      | v :: _ => if c.IsValueLiteral then " " ++ v else " " ++ goQuote v)

/-- The AND-separated conditions of the where clause. -/
def conditionsText : List Condition → String
  | [] => ""
  | [c] => conditionText c
  | c :: cs => conditionText c ++ " AND " ++ conditionsText cs

/-- String of a SelectStatement (format.go): empty without fields or a
table name; otherwise the restricted dialect, dropping GROUP BY, ORDER BY,
LIMIT and the aggregate and alias decorations. -/
def SelectString (s : SelectStatement) : String :=
  if s.Fields.length = 0 || s.TableName = "" then ""
  else
    "SELECT " ++ fieldsText s.Fields ++ " FROM " ++ s.TableName ++
    (if s.Where.length > 0 then " WHERE " ++ conditionsText s.Where else "") ++
    (match s.During with
     | [] => ""
     | [d] => " DURING " ++ d
     | d1 :: d2 :: _ => " DURING " ++ d1 ++ "," ++ d2)

end Awql

namespace Awql

/- ===================== Parser state lemmas ===================== -/

/-- After a scan the buffer holds the token just returned and the buffer
counter is 0. -/
theorem scan_buf (p : PState) :
    (scan p).2.bufT = (scan p).1.1 ∧ (scan p).2.bufL = (scan p).1.2 ∧
    (scan p).2.bufN = 0 := by
  unfold scan
  split
  · simp
  · split <;> simp

/-- After scanIgnoreWhitespace the buffer holds the returned token and the
buffer counter is 0. -/
theorem sIW_buf (p : PState) :
    (scanIgnoreWhitespace p).2.bufT = (scanIgnoreWhitespace p).1.1 ∧
    (scanIgnoreWhitespace p).2.bufL = (scanIgnoreWhitespace p).1.2 ∧
    (scanIgnoreWhitespace p).2.bufN = 0 := by
  unfold scanIgnoreWhitespace
  have h1 := scan_buf p
  rcases hsp : scan p with ⟨⟨tk, l⟩, q⟩
  rw [hsp] at h1
  simp only []
  by_cases hw : tk = Token.WHITE_SPACE
  · simp only [hw, if_true]
    exact scan_buf q
  · simp only [hw, if_false]
    simpa using h1

/-- Reading again after an unscan returns the same non-whitespace token and
restores the same state. -/
theorem sIW_unscan (p : PState) (tk : Token) (l : String) (p' : PState)
    (h : scanIgnoreWhitespace p = ((tk, l), p')) (hw : tk ≠ Token.WHITE_SPACE) :
    scanIgnoreWhitespace (unscan p') = ((tk, l), p') := by
  have hb := sIW_buf p
  rw [h] at hb
  simp only [] at hb
  obtain ⟨hT, hL, hN⟩ := hb
  have hscan : scan (unscan p') = ((tk, l), { p' with bufN := 0 }) := by
    unfold scan unscan
    simp [hT, hL]
  have hps : ({ p' with bufN := 0 } : PState) = p' := by
    cases p' with
    | mk a b c d => simp only [] at hN; simp [hN]
  unfold scanIgnoreWhitespace
  rw [hscan, hps]
  simp [hw]

/- ===================== DURING clause lemmas ===================== -/

/-- An 8-digit calendar date is never one of the named range literals. -/
theorem date_not_lit (s : String) (h : isDate s = true) : isDateRangeLiteral s = false := by
  cases hl : isDateRangeLiteral s
  · rfl
  · exfalso
    unfold isDateRangeLiteral at hl
    simp only [Bool.or_eq_true, decide_eq_true_eq] at hl
    rcases hl with ((((((((((h1|h1)|h1)|h1)|h1)|h1)|h1)|h1)|h1)|h1)|h1) <;>
      subst h1 <;> exact absurd h (by decide)

/-- The entries collected by the DURING loop are all dates or range
literals, and the literal flag records whether any range literal was
seen. -/
theorem duringLoop_ok (fuel : Nat) :
    ∀ (p : PState) (acc : List String) (dl : Bool) (l : List String) (dl' : Bool)
      (p' : PState),
    duringLoop fuel p acc dl = .ok (l, dl', p') →
    ∃ suf, l = acc ++ suf ∧
      (∀ x ∈ suf, isDate x = true ∨ isDateRangeLiteral x = true) ∧
      dl' = (dl || suf.any (fun x => isDateRangeLiteral x)) := by
  induction fuel with
  | zero => intro p acc dl l dl' p' h; simp [duringLoop] at h
  | succ n ih =>
    intro p acc dl l dl' p' h
    unfold duringLoop at h
    rcases hsp : scanIgnoreWhitespace p with ⟨⟨tk, lit⟩, p1⟩
    rw [hsp] at h
    simp only [] at h
    split at h
    · rename_i hcond
      simp only [Bool.and_eq_true, decide_eq_true_eq] at hcond
      obtain ⟨htk, hdate⟩ := hcond
      rcases hsp2 : scanIgnoreWhitespace p1 with ⟨⟨tk2, lit2⟩, p2⟩
      rw [hsp2] at h
      simp only [] at h
      split at h
      · obtain ⟨suf', hl, helems, hflag⟩ := ih _ _ _ _ _ _ h
        refine ⟨lit :: suf', by simpa using hl, ?_, ?_⟩
        · intro x hx
          rcases List.mem_cons.mp hx with hx | hx
          · exact Or.inl (hx ▸ hdate)
          · exact helems x hx
        · simp [hflag, List.any_cons, date_not_lit lit hdate]
      · simp only [Except.ok.injEq, Prod.mk.injEq] at h
        obtain ⟨h1, h2, h3⟩ := h
        refine ⟨[lit], by simp [h1.symm], ?_, ?_⟩
        · intro x hx; simp at hx; subst hx; exact Or.inl hdate
        · simp [h2.symm, date_not_lit lit hdate]
    · split at h
      · rename_i hcond
        simp only [Bool.and_eq_true, decide_eq_true_eq] at hcond
        obtain ⟨htk, hlit⟩ := hcond
        rcases hsp2 : scanIgnoreWhitespace p1 with ⟨⟨tk2, lit2⟩, p2⟩
        rw [hsp2] at h
        simp only [] at h
        split at h
        · obtain ⟨suf', hl, helems, hflag⟩ := ih _ _ _ _ _ _ h
          refine ⟨lit :: suf', by simpa using hl, ?_, ?_⟩
          · intro x hx
            rcases List.mem_cons.mp hx with hx | hx
            · exact Or.inr (hx ▸ hlit)
            · exact helems x hx
          · simp [hflag, List.any_cons, hlit]
        · simp only [Except.ok.injEq, Prod.mk.injEq] at h
          obtain ⟨h1, h2, h3⟩ := h
          refine ⟨[lit], by simp [h1.symm], ?_, ?_⟩
          · intro x hx; simp at hx; subst hx; exact Or.inr hlit
          · simp [h2.symm, hlit]
      · exact absurd h (by simp)

/-- Every error of the DURING loop is an invalid-during error. -/
theorem duringLoop_err (fuel : Nat) :
    ∀ (p : PState) (acc : List String) (dl : Bool) (e : ParseErr),
    duringLoop fuel p acc dl = .error e → ∃ s, e = .badDuring s := by
  induction fuel with
  | zero =>
    intro p acc dl e h
    simp only [duringLoop, Except.error.injEq] at h
    exact ⟨"", h.symm⟩
  | succ n ih =>
    intro p acc dl e h
    unfold duringLoop at h
    rcases hsp : scanIgnoreWhitespace p with ⟨⟨tk, lit⟩, p1⟩
    rw [hsp] at h
    simp only [] at h
    split at h
    · rcases hsp2 : scanIgnoreWhitespace p1 with ⟨⟨tk2, lit2⟩, p2⟩
      rw [hsp2] at h
      simp only [] at h
      split at h
      · exact ih _ _ _ _ h
      · exact absurd h (by simp)
    · split at h
      · rcases hsp2 : scanIgnoreWhitespace p1 with ⟨⟨tk2, lit2⟩, p2⟩
        rw [hsp2] at h
        simp only [] at h
        split at h
        · exact ih _ _ _ _ h
        · exact absurd h (by simp)
      · simp only [Except.error.injEq] at h
        exact ⟨lit, h.symm⟩

/-- A DURING clause that parses successfully is absent, a single named
range literal, or two calendar dates. -/
theorem parseDuringClause_ok (fuel : Nat) (p : PState) (during : List String)
    (p' : PState) (h : parseDuringClause fuel p = .ok (during, p')) :
    during = [] ∨
    (∃ d, during = [d] ∧ isDateRangeLiteral d = true) ∨
    (∃ d1 d2, during = [d1, d2] ∧ isDate d1 = true ∧ isDate d2 = true) := by
  unfold parseDuringClause at h
  rcases hsp : scanIgnoreWhitespace p with ⟨⟨tk, lit⟩, p1⟩
  rw [hsp] at h
  simp only [] at h
  split at h
  · rcases hdl : duringLoop fuel p1 [] false with e | ⟨l, dl, p2⟩
    · rw [hdl] at h; simp at h
    · rw [hdl] at h
      simp only [] at h
      obtain ⟨suf, hl, helems, hflag⟩ := duringLoop_ok fuel p1 [] false l dl p2 hdl
      simp only [List.nil_append] at hl
      subst hl
      simp only [Bool.false_or] at hflag
      split at h
      · simp at h
      · rename_i hb1
        split at h
        · simp at h
        · rename_i hb2
          split at h
          · simp at h
          · rename_i hb3
            simp only [Except.ok.injEq, Prod.mk.injEq] at h
            obtain ⟨h1, h2⟩ := h
            subst h1
            simp only [Bool.or_eq_true, Bool.and_eq_true, decide_eq_true_eq,
              not_or] at hb1 hb2 hb3
            rcases l with _ | ⟨a, _ | ⟨b, _ | ⟨c, t⟩⟩⟩
            · exact absurd (by simp : ([] : List String).length < 1) hb1.1
            · right; left
              refine ⟨a, rfl, ?_⟩
              have hdl1 : dl = true := by
                by_contra hdlf
                exact hb2 ⟨by simp, by simpa using hdlf⟩
              rw [hdl1] at hflag
              simpa using hflag.symm
            · right; right
              have hdl0 : dl = false := by
                by_contra hdlt
                exact hb3 ⟨by simp, by simpa using hdlt⟩
              rw [hdl0] at hflag
              have hany : isDateRangeLiteral a = false ∧ isDateRangeLiteral b = false := by
                have := hflag.symm
                simp only [List.any_cons, List.any_nil, Bool.or_false,
                  Bool.or_eq_false_iff] at this
                exact this
              refine ⟨a, b, rfl, ?_, ?_⟩
              · rcases helems a (by simp) with hh | hh
                · exact hh
                · rw [hany.1] at hh; cases hh
              · rcases helems b (by simp) with hh | hh
                · exact hh
                · rw [hany.2] at hh; cases hh
            · exfalso
              have : (a :: b :: c :: t).length > 2 := by
                simp only [List.length_cons]; omega
              exact hb1.2 this
  · simp only [Except.ok.injEq, Prod.mk.injEq] at h
    exact Or.inl h.1.symm

/-- Every error of the DURING clause is an invalid-during error. -/
theorem parseDuringClause_err (fuel : Nat) (p : PState) (e : ParseErr)
    (h : parseDuringClause fuel p = .error e) : ∃ s, e = .badDuring s := by
  unfold parseDuringClause at h
  rcases hsp : scanIgnoreWhitespace p with ⟨⟨tk, lit⟩, p1⟩
  rw [hsp] at h
  simp only [] at h
  split at h
  · rcases hdl : duringLoop fuel p1 [] false with e' | ⟨l, dl, p2⟩
    · rw [hdl] at h
      simp only [Except.error.injEq] at h
      obtain ⟨s, hs⟩ := duringLoop_err fuel p1 [] false e' hdl
      exact ⟨s, h ▸ hs⟩
    · rw [hdl] at h
      simp only [] at h
      split at h
      · simp only [Except.error.injEq] at h; exact ⟨_, h.symm⟩
      · split at h
        · simp only [Except.error.injEq] at h; exact ⟨_, h.symm⟩
        · split at h
          · simp only [Except.error.injEq] at h; exact ⟨_, h.symm⟩
          · simp at h
  · simp at h

end Awql

namespace Awql

theorem scanValueList_lsb (q : PState) (l : String) (p1 : PState)
    (h : scanIgnoreWhitespace q = ((Token.LEFT_SQUARE_BRACKETS, l), p1)) :
    scanValueList q =
      ((Token.LEFT_SQUARE_BRACKETS, (svlLoop (p1.src.length + 2) p1 []).2),
       (svlLoop (p1.src.length + 2) p1 []).1) := by
  unfold scanValueList
  rw [h]
  simp

theorem parseConditionValue_ok (p : PState) (c0 c : Condition) (p' : PState)
    (h : parseConditionValue p c0 = .ok (c, p')) :
    ∃ v, c.Value = c0.Value ++ [v] := by
  unfold parseConditionValue at h
  rcases hsp : scanIgnoreWhitespace p with ⟨⟨tk, lit⟩, p1⟩
  rw [hsp] at h
  simp only [] at h
  cases tk
  case LEFT_SQUARE_BRACKETS =>
    exfalso
    have hre := sIW_unscan p _ _ _ hsp (by decide)
    have hsvl := scanValueList_lsb (unscan p1) lit p1 hre
    rw [hsvl] at h
    simp at h
  all_goals
    first
      | (simp only [Except.ok.injEq, Prod.mk.injEq] at h
         exact ⟨lit, by rw [← h.1]⟩)
      | simp at h

theorem parseCondition_ok (p : PState) (c : Condition) (p' : PState)
    (h : parseCondition p = .ok (c, p')) : ∃ v, c.Value = [v] := by
  unfold parseCondition at h
  rcases hsp : scanIgnoreWhitespace p with ⟨⟨tk, lit⟩, p1⟩
  rw [hsp] at h
  simp only [] at h
  split at h
  · simp at h
  · rcases hsp2 : scanIgnoreWhitespace p1 with ⟨⟨tk2, lit2⟩, p2⟩
    rw [hsp2] at h
    simp only [] at h
    split at h
    · simp at h
    · simpa using parseConditionValue_ok _ _ _ _ h

theorem whereLoop_ok (fuel : Nat) :
    ∀ (p : PState) (acc l : List Condition) (p' : PState),
    whereLoop fuel p acc = .ok (l, p') →
    ∃ suf, l = acc ++ suf ∧ ∀ cnd ∈ suf, ∃ v, cnd.Value = [v] := by
  induction fuel with
  | zero => intro p acc l p' h; simp [whereLoop] at h
  | succ n ih =>
    intro p acc l p' h
    unfold whereLoop at h
    rcases hpc : parseCondition p with e | ⟨cnd, p1⟩
    · rw [hpc] at h; simp at h
    · rw [hpc] at h
      simp only [] at h
      rcases hsp : scanIgnoreWhitespace p1 with ⟨⟨tk, lit⟩, p2⟩
      rw [hsp] at h
      simp only [] at h
      split at h
      · obtain ⟨suf', hl, hcnds⟩ := ih _ _ _ _ h
        refine ⟨cnd :: suf', by simpa using hl, ?_⟩
        intro x hx
        rcases List.mem_cons.mp hx with hx | hx
        · exact hx ▸ parseCondition_ok p cnd p1 hpc
        · exact hcnds x hx
      · simp only [Except.ok.injEq, Prod.mk.injEq] at h
        refine ⟨[cnd], by simp [h.1.symm], ?_⟩
        intro x hx; simp at hx; rw [hx]
        exact parseCondition_ok p cnd p1 hpc

theorem parseWhereClause_ok (fuel : Nat) (p : PState) (l : List Condition)
    (p' : PState) (h : parseWhereClause fuel p = .ok (l, p')) :
    ∀ cnd ∈ l, ∃ v, cnd.Value = [v] := by
  unfold parseWhereClause at h
  rcases hsp : scanIgnoreWhitespace p with ⟨⟨tk, lit⟩, p1⟩
  rw [hsp] at h
  simp only [] at h
  split at h
  · obtain ⟨suf, hl, hcnds⟩ := whereLoop_ok fuel p1 [] l p' h
    simp only [List.nil_append] at hl
    subst hl
    exact hcnds
  · simp only [Except.ok.injEq, Prod.mk.injEq] at h
    intro cnd hc
    rw [← h.1] at hc
    cases hc

end Awql

namespace Awql

/-- Destructuring a successful parseSelect: the During and Where components
of the result are the successful outputs of their clause parsers. -/
theorem parseSelect_ok_parts (p : PState) (stmt : SelectStatement) (p' : PState)
    (h : parseSelect p = .ok (stmt, p')) :
    (∃ fuel q qD, parseDuringClause fuel q = .ok (stmt.During, qD)) ∧
    (∃ fuel q qW, parseWhereClause fuel q = .ok (stmt.Where, qW)) := by
  unfold parseSelect at h
  rcases hsp : scanIgnoreWhitespace p with ⟨⟨tk, lit⟩, p0⟩
  rw [hsp] at h
  simp only [] at h
  split at h
  · simp at h
  · rcases hf : parseFieldsLoop (p0.src.length + 2) p0 [] with e | ⟨fields, pA⟩
    · rw [hf] at h; simp at h
    · rw [hf] at h; simp only [] at h
      rcases hfr : parseFromClause pA with e | ⟨tbl, pB⟩
      · rw [hfr] at h; simp at h
      · rw [hfr] at h; simp only [] at h
        rcases hw : parseWhereClause (pB.src.length + 2) pB with e | ⟨conds, pC⟩
        · rw [hw] at h; simp at h
        · rw [hw] at h; simp only [] at h
          rcases hd : parseDuringClause (pC.src.length + 2) pC with e | ⟨during, pD⟩
          · rw [hd] at h; simp at h
          · rw [hd] at h; simp only [] at h
            rcases hg : parseGroupClause (pD.src.length + 2) pD fields with e | ⟨groups, pE⟩
            · rw [hg] at h; simp at h
            · rw [hg] at h; simp only [] at h
              rcases ho : parseOrderClause (pE.src.length + 2) pE fields with e | ⟨orders, pF⟩
              · rw [ho] at h; simp at h
              · rw [ho] at h; simp only [] at h
                rcases hl : parseLimitClause pF with e | ⟨lim, pG⟩
                · rw [hl] at h; simp at h
                · rw [hl] at h; simp only [] at h
                  rcases he : scanQueryEnding pG with ⟨eg, pH⟩
                  rw [he] at h
                  cases eg with
                  | error e => simp at h
                  | ok g =>
                    simp only [Except.ok.injEq, Prod.mk.injEq] at h
                    obtain ⟨hstmt, hp⟩ := h
                    have hDur : stmt.During = during := by rw [← hstmt]
                    have hWhr : stmt.Where = conds := by rw [← hstmt]
                    exact ⟨⟨_, pC, pD, by rw [hDur]; exact hd⟩,
                           ⟨_, pB, pC, by rw [hWhr]; exact hw⟩⟩

end Awql

namespace Awql

/-- Claim C4: for every SelectStatement returned without error the During
list is empty (no DURING clause), a single recognized named range literal,
or two valid 8-digit calendar dates; and every failure of the DURING
clause parser is an INVALID_DURING error. -/
theorem claim_C4_during :
    (∀ (p : PState) (stmt : SelectStatement) (p' : PState),
        parseSelect p = .ok (stmt, p') →
        stmt.During = [] ∨
        (∃ d, stmt.During = [d] ∧ isDateRangeLiteral d = true) ∨
        (∃ d1 d2, stmt.During = [d1, d2] ∧ isDate d1 = true ∧ isDate d2 = true)) ∧
    (∀ (fuel : Nat) (p : PState) (e : ParseErr),
        parseDuringClause fuel p = .error e → ∃ s, e = .badDuring s) := by
  constructor
  · intro p stmt p' h
    obtain ⟨⟨fuel, q, qD, hd⟩, _⟩ := parseSelect_ok_parts p stmt p' h
    exact parseDuringClause_ok fuel q _ qD hd
  · intro fuel p e h
    exact parseDuringClause_err fuel p e h

/-- Witness for claim C4 at two concrete inputs: a successful parse with
DURING TODAY and the single-explicit-date failure. -/
theorem claim_C4_during_witness :
    (∃ stmt p', parseSelect (mkState "SELECT a FROM b DURING TODAY") = .ok (stmt, p') ∧
       (stmt.During = [] ∨
        (∃ d, stmt.During = [d] ∧ isDateRangeLiteral d = true) ∨
        (∃ d1 d2, stmt.During = [d1, d2] ∧ isDate d1 = true ∧ isDate d2 = true))) ∧
    (∃ s, (ParseErr.badDuring "expected date range literal") = .badDuring s) := by
  constructor
  · refine ⟨_, _, rfl, ?_⟩
    exact claim_C4_during.1 (mkState "SELECT a FROM b DURING TODAY") _ _ rfl
  · exact claim_C4_during.2 6
      (stateOf [⟨.DURING, "DURING"⟩, ⟨.DIGIT, "20161224"⟩])
      (.badDuring "expected date range literal") rfl

/-- Claim C7: every condition of a successfully parsed SELECT has a
non-empty, single-element (hence kind-homogeneous) value list, and a
bracketed value list at the value position always makes the condition
parse fail. -/
theorem claim_C7_condition_values :
    (∀ (p : PState) (stmt : SelectStatement) (p' : PState),
        parseSelect p = .ok (stmt, p') →
        ∀ cnd ∈ stmt.Where, cnd.Value ≠ [] ∧ ∃ v, cnd.Value = [v]) ∧
    (∀ (p : PState) (c0 : Condition) (l : String) (p1 : PState),
        scanIgnoreWhitespace p = ((Token.LEFT_SQUARE_BRACKETS, l), p1) →
        parseConditionValue p c0 = .error (.synNear l)) := by
  constructor
  · intro p stmt p' h cnd hc
    obtain ⟨_, ⟨fuel, q, qW, hw⟩⟩ := parseSelect_ok_parts p stmt p' h
    obtain ⟨v, hv⟩ := parseWhereClause_ok fuel q _ qW hw cnd hc
    exact ⟨by simp [hv], ⟨v, hv⟩⟩
  · intro p c0 l p1 hsp
    have hre := sIW_unscan p _ _ _ hsp (by decide)
    have hsvl := scanValueList_lsb (unscan p1) l p1 hre
    unfold parseConditionValue
    rw [hsp]
    simp only []
    rw [hsvl]
    simp

/-- Witness for claim C7 at concrete inputs: the condition of a parsed
query has a singleton value list, and a bracketed list fails. -/
theorem claim_C7_condition_values_witness :
    (∃ stmt p', parseSelect (mkState "SELECT a FROM b WHERE a = 12") = .ok (stmt, p') ∧
       ∀ cnd ∈ stmt.Where, cnd.Value ≠ [] ∧ ∃ v, cnd.Value = [v]) ∧
    parseConditionValue (stateOf [⟨.LEFT_SQUARE_BRACKETS, "["⟩]) {} =
      .error (.synNear "[") := by
  constructor
  · refine ⟨_, _, rfl, ?_⟩
    exact claim_C7_condition_values.1 (mkState "SELECT a FROM b WHERE a = 12") _ _ rfl
  · exact claim_C7_condition_values.2 (stateOf [⟨.LEFT_SQUARE_BRACKETS, "["⟩]) {} "["
      ⟨[], .LEFT_SQUARE_BRACKETS, "[", 0⟩ rfl

end Awql

namespace Awql

set_option maxHeartbeats 1000000 in
/-- Claim C8: a LIMIT clause with a single integer gives offset 0, that
integer as row count and the row-count flag raised; with two integers the
first is the offset and the second the row count; a non-integer argument
in either position is an INVALID_LIMIT error (in the second position the
Go code formats the still-zero row count into the message with a %s
verb); plus the two scenario queries end to end. -/
theorem claim_C8_limit :
    (∀ (p p1 p2 p3 : PState) (l1 n : String) (tk3 : Token) (l3 : String),
        scanIgnoreWhitespace p = ((Token.LIMIT, l1), p1) →
        scanIgnoreWhitespace p1 = ((Token.DIGIT, n), p2) →
        scanIgnoreWhitespace p2 = ((tk3, l3), p3) →
        tk3 ≠ Token.COMMA →
        parseLimitClause p =
          .ok ({ Offset := 0, RowCount := goAtoi n, WithRowCount := true }, unscan p3)) ∧
    (∀ (p p1 p2 p3 p4 : PState) (l1 n l3 m : String),
        scanIgnoreWhitespace p = ((Token.LIMIT, l1), p1) →
        scanIgnoreWhitespace p1 = ((Token.DIGIT, n), p2) →
        scanIgnoreWhitespace p2 = ((Token.COMMA, l3), p3) →
        scanIgnoreWhitespace p3 = ((Token.DIGIT, m), p4) →
        parseLimitClause p =
          .ok ({ Offset := goAtoi n, RowCount := goAtoi m, WithRowCount := true }, p4)) ∧
    (∀ (p p1 p2 : PState) (l1 : String) (tk2 : Token) (l2 : String),
        scanIgnoreWhitespace p = ((Token.LIMIT, l1), p1) →
        scanIgnoreWhitespace p1 = ((tk2, l2), p2) →
        tk2 ≠ Token.DIGIT →
        parseLimitClause p = .error (.badLimit l2)) ∧
    (∀ (p p1 p2 p3 p4 : PState) (l1 n l3 : String) (tk4 : Token) (l4 : String),
        scanIgnoreWhitespace p = ((Token.LIMIT, l1), p1) →
        scanIgnoreWhitespace p1 = ((Token.DIGIT, n), p2) →
        scanIgnoreWhitespace p2 = ((Token.COMMA, l3), p3) →
        scanIgnoreWhitespace p3 = ((tk4, l4), p4) →
        tk4 ≠ Token.DIGIT →
        parseLimitClause p = .error (.badLimit (goFmtSInt 0))) ∧
    ((parseSelect (mkState "SELECT a FROM b LIMIT 15, 5")).map
        (fun r => (r.1.Offset, r.1.RowCount, r.1.WithRowCount)) = .ok (15, 5, true)) ∧
    ((parseSelect (mkState "SELECT a FROM b LIMIT 5")).map
        (fun r => (r.1.Offset, r.1.RowCount, r.1.WithRowCount)) = .ok (0, 5, true)) := by
  refine ⟨?_, ?_, ?_, ?_, rfl, rfl⟩
  · intro p p1 p2 p3 l1 n tk3 l3 h1 h2 h3 hnc
    unfold parseLimitClause
    rw [h1]
    dsimp only
    rw [h2]
    dsimp only
    rw [h3]
    dsimp only
    rw [if_neg hnc]
    rfl
  · intro p p1 p2 p3 p4 l1 n l3 m h1 h2 h3 h4
    unfold parseLimitClause
    rw [h1]
    dsimp only
    rw [h2]
    dsimp only
    rw [h3]
    dsimp only
    rw [h4]
    rfl
  · intro p p1 p2 l1 tk2 l2 h1 h2 hnd
    unfold parseLimitClause
    rw [h1]
    dsimp only
    rw [h2]
    dsimp only
    rw [if_pos hnd]
    rfl
  · intro p p1 p2 p3 p4 l1 n l3 tk4 l4 h1 h2 h3 h4 hnd
    unfold parseLimitClause
    rw [h1]
    dsimp only
    rw [h2]
    dsimp only
    rw [h3]
    dsimp only
    rw [h4]
    dsimp only
    rw [if_pos hnd]
    rfl

/-- Witness for claim C8 at concrete clause states: the two-integer form
and the non-integer second argument. -/
theorem claim_C8_limit_witness :
    (parseLimitClause (stateOf [⟨.LIMIT, "LIMIT"⟩, ⟨.DIGIT, "15"⟩, ⟨.COMMA, ","⟩,
        ⟨.DIGIT, "5"⟩]) =
      .ok ({ Offset := goAtoi "15", RowCount := goAtoi "5", WithRowCount := true },
        ⟨[], .DIGIT, "5", 0⟩)) ∧
    (parseLimitClause (stateOf [⟨.LIMIT, "LIMIT"⟩, ⟨.DIGIT, "15"⟩, ⟨.COMMA, ","⟩,
        ⟨.IDENTIFIER, "x"⟩]) = .error (.badLimit (goFmtSInt 0))) := by
  constructor
  · exact claim_C8_limit.2.1
      (stateOf [⟨.LIMIT, "LIMIT"⟩, ⟨.DIGIT, "15"⟩, ⟨.COMMA, ","⟩, ⟨.DIGIT, "5"⟩])
      ⟨[⟨.DIGIT, "15"⟩, ⟨.COMMA, ","⟩, ⟨.DIGIT, "5"⟩], .LIMIT, "LIMIT", 0⟩
      ⟨[⟨.COMMA, ","⟩, ⟨.DIGIT, "5"⟩], .DIGIT, "15", 0⟩
      ⟨[⟨.DIGIT, "5"⟩], .COMMA, ",", 0⟩
      ⟨[], .DIGIT, "5", 0⟩
      "LIMIT" "15" "," "5" rfl rfl rfl rfl
  · exact claim_C8_limit.2.2.2.1
      (stateOf [⟨.LIMIT, "LIMIT"⟩, ⟨.DIGIT, "15"⟩, ⟨.COMMA, ","⟩, ⟨.IDENTIFIER, "x"⟩])
      ⟨[⟨.DIGIT, "15"⟩, ⟨.COMMA, ","⟩, ⟨.IDENTIFIER, "x"⟩], .LIMIT, "LIMIT", 0⟩
      ⟨[⟨.COMMA, ","⟩, ⟨.IDENTIFIER, "x"⟩], .DIGIT, "15", 0⟩
      ⟨[⟨.IDENTIFIER, "x"⟩], .COMMA, ",", 0⟩
      ⟨[], .IDENTIFIER, "x", 0⟩
      "LIMIT" "15" "," .IDENTIFIER "x" rfl rfl rfl rfl (by decide)

end Awql

namespace Awql

/-- Claim C9 (amended): after all clauses the next token must be a vertical
output marker (raising the statement's vertical flag), a semicolon or the
end of input; any other token fails with a syntax error naming its
literal, and on that failure the offending token remains consumed: it is
not pushed back onto the one-token buffer (the buffer counter stays 0). -/
theorem claim_C9_ending :
    ∀ (p : PState) (tk : Token) (l : String) (p' : PState),
      scanIgnoreWhitespace p = ((tk, l), p') →
      ((tk = Token.G_MODIFIER → scanQueryEnding p = (.ok true, p')) ∧
       (tk = Token.SEMICOLON ∨ tk = Token.EOF → scanQueryEnding p = (.ok false, p')) ∧
       (tk ≠ Token.G_MODIFIER → tk ≠ Token.SEMICOLON → tk ≠ Token.EOF →
         scanQueryEnding p = (.error (.synNear l), p') ∧ p'.bufN = 0)) := by
  intro p tk l p' h
  refine ⟨?_, ?_, ?_⟩
  · intro ht
    subst ht
    unfold scanQueryEnding
    rw [h]
  · intro ht
    rcases ht with ht | ht <;> subst ht <;> (unfold scanQueryEnding; rw [h])
  · intro h1 h2 h3
    constructor
    · unfold scanQueryEnding
      rw [h]
      dsimp only
      cases tk <;> first | rfl | simp_all
    · have hb := sIW_buf p
      rw [h] at hb
      exact hb.2.2

/-- Witness for claim C9 at a concrete state for each of the three
cases. -/
theorem claim_C9_ending_witness :
    (scanQueryEnding (stateOf [⟨.G_MODIFIER, "G"⟩]) =
      (.ok true, ⟨[], .G_MODIFIER, "G", 0⟩)) ∧
    (scanQueryEnding (stateOf [⟨.SEMICOLON, ";"⟩]) =
      (.ok false, ⟨[], .SEMICOLON, ";", 0⟩)) ∧
    (scanQueryEnding (stateOf [⟨.IDENTIFIER, "x"⟩]) =
      (.error (.synNear "x"), ⟨[], .IDENTIFIER, "x", 0⟩) ∧
      (⟨[], .IDENTIFIER, "x", 0⟩ : PState).bufN = 0) := by
  refine ⟨?_, ?_, ?_⟩
  · exact (claim_C9_ending (stateOf [⟨.G_MODIFIER, "G"⟩]) .G_MODIFIER "G"
      ⟨[], .G_MODIFIER, "G", 0⟩ rfl).1 rfl
  · exact (claim_C9_ending (stateOf [⟨.SEMICOLON, ";"⟩]) .SEMICOLON ";"
      ⟨[], .SEMICOLON, ";", 0⟩ rfl).2.1 (Or.inl rfl)
  · exact (claim_C9_ending (stateOf [⟨.IDENTIFIER, "x"⟩]) .IDENTIFIER "x"
      ⟨[], .IDENTIFIER, "x", 0⟩ rfl).2.2 (by decide) (by decide) (by decide)

/-- Claim C9 counterexample: the claim as stated asserts the offending
token is pushed back on failure; at this concrete input the parse fails
with the syntax error, yet the buffer counter is 0 and the next scan
returns the following token, not the offending one. -/
theorem claim_C9_ending_counterexample :
    scanQueryEnding (stateOf [⟨.IDENTIFIER, "x"⟩, ⟨.DIGIT, "1"⟩]) =
      (.error (.synNear "x"), ⟨[⟨.DIGIT, "1"⟩], .IDENTIFIER, "x", 0⟩) ∧
    (scan (scanQueryEnding (stateOf [⟨.IDENTIFIER, "x"⟩, ⟨.DIGIT, "1"⟩])).2).1 =
      (Token.DIGIT, "1") ∧
    ((Token.DIGIT, "1") : Token × String) ≠ (Token.IDENTIFIER, "x") := by
  exact ⟨rfl, rfl, by decide⟩

end Awql

namespace Awql

theorem getLast?_cons_ne (c : Char) (l : List Char) (hne : l ≠ []) :
    (c :: l).getLast? = l.getLast? := by
  cases l with
  | nil => exact absurd rfl hne
  | cons x l' => exact List.getLast?_cons_cons

theorem scanQS_decomp (q : Char) :
    ∀ (cs lit rest : List Char), scanQS q cs = some (lit, rest) →
      cs = lit ++ rest ∧ lit ≠ [] ∧ lit.getLast? = some q := by
  intro cs
  induction cs using scanQS.induct q with
  | case1 =>
    intro lit rest h
    exact absurd h (by simp [scanQS])
  | case2 =>
    intro lit rest h
    exact absurd h (by simp [scanQS])
  | case3 d cs' hnone ih =>
    intro lit rest h
    rw [scanQS.eq_def] at h
    split at h
    · cases h
    · rename_i c cs0 heq
      injection heq with hc hcs0
      subst hc
      subst hcs0
      split at h
      · dsimp only at h
        rw [hnone] at h
        cases h
      · rename_i hbs
        exact absurd rfl hbs
  | case4 d cs' l r hsome ih =>
    intro lit rest h
    rw [scanQS.eq_def] at h
    split at h
    · cases h
    · rename_i c cs0 heq
      injection heq with hc hcs0
      subst hc
      subst hcs0
      split at h
      · dsimp only at h
        rw [hsome] at h
        simp only [Option.some.injEq, Prod.mk.injEq] at h
        obtain ⟨hlit, hrest⟩ := h
        obtain ⟨hdec, hne, hlast⟩ := ih l r hsome
        subst hrest
        refine ⟨by simp [hdec, ← hlit], ?_, ?_⟩
        · rw [← hlit]; simp
        · rw [← hlit]
          rw [getLast?_cons_ne _ _ (by simp), getLast?_cons_ne _ _ hne]
          exact hlast
      · rename_i hbs
        exact absurd rfl hbs
  | case5 cs' hq =>
    intro lit rest h
    rw [scanQS.eq_def] at h
    split at h
    · cases h
    · rename_i c cs0 heq
      injection heq with hc hcs0
      subst hc
      subst hcs0
      split at h
      · rename_i hbs
        exact absurd hbs hq
      · rw [if_pos rfl] at h
        simp only [Option.some.injEq, Prod.mk.injEq] at h
        obtain ⟨hlit, hrest⟩ := h
        subst hrest
        rw [← hlit]
        exact ⟨rfl, by simp, by simp⟩
  | case6 d cs' hbs hq hnone ih =>
    intro lit rest h
    rw [scanQS.eq_def] at h
    split at h
    · cases h
    · rename_i c cs0 heq
      injection heq with hc hcs0
      subst hc
      subst hcs0
      split at h
      · rename_i hbs'
        exact absurd hbs' hbs
      · rw [hnone] at h
        cases h
  | case7 d cs' hbs hq l r hsome ih =>
    intro lit rest h
    rw [scanQS.eq_def] at h
    split at h
    · cases h
    · rename_i c cs0 heq
      injection heq with hc hcs0
      subst hc
      subst hcs0
      split at h
      · rename_i hbs'
        exact absurd hbs' hbs
      · rw [hsome] at h
        simp only [Option.some.injEq, Prod.mk.injEq] at h
        obtain ⟨hlit, hrest⟩ := h
        obtain ⟨hdec, hne, hlast⟩ := ih l r hsome
        subst hrest
        refine ⟨by simp [hdec, ← hlit], ?_, ?_⟩
        · rw [← hlit]; simp
        · rw [← hlit]
          rw [getLast?_cons_ne _ _ hne]
          exact hlast

end Awql

namespace Awql

/-- Claim C10: whenever scanQuotedString returns a STRING token, the input
began with a quote, the literal omits that opening quote but is exactly the
following runes up to and including the closing quote (escape pairs kept),
and the rest of the input follows it; scanning a quoted word returns the
literal with the trailing quote, and an unterminated string produces no
STRING token (the zero values instead). -/
theorem claim_C10_quoted_string :
    (∀ (cs : List Char) (s : String) (rest : List Char),
        scanQuotedString cs = ((Token.STRING, s), rest) →
        ∃ q cs', cs = q :: cs' ∧ isQuoteC q = true ∧
          cs' = s.toList ++ rest ∧ s.toList ≠ [] ∧ s.toList.getLast? = some q) ∧
    scanQuotedString ("\x27abc\x27".toList) = ((Token.STRING, "abc\x27"), []) ∧
    scanQuotedString ("\x27abc".toList) = ((Token.ILLEGAL, ""), []) := by
  refine ⟨?_, rfl, rfl⟩
  intro cs s rest h
  unfold scanQuotedString at h
  match cs, h with
  | [], h => cases h
  | c :: cs', h =>
    dsimp only at h
    by_cases hq : isQuoteC c = true
    · rw [if_pos hq] at h
      rcases hqs : scanQS c cs' with _ | ⟨l, r⟩
      · rw [hqs] at h
        cases h
      · rw [hqs] at h
        simp only [Prod.mk.injEq] at h
        obtain ⟨⟨_, hs⟩, hrest⟩ := h
        obtain ⟨hdec, hne, hlast⟩ := scanQS_decomp c cs' l r hqs
        subst hrest
        refine ⟨c, cs', rfl, hq, ?_, ?_, ?_⟩
        · rw [← hs, List.toList_asString]
          exact hdec
        · rw [← hs, List.toList_asString]
          exact hne
        · rw [← hs, List.toList_asString]
          exact hlast
    · rw [if_neg hq] at h
      cases h

/-- Witness for claim C10, applying the general part at the scenario
input. -/
theorem claim_C10_quoted_string_witness :
    ∃ q cs', ("\x27abc\x27".toList) = q :: cs' ∧ isQuoteC q = true ∧
      cs' = ("abc\x27" : String).toList ++ ([] : List Char) ∧
      ("abc\x27" : String).toList ≠ [] ∧
      ("abc\x27" : String).toList.getLast? = some q := by
  exact claim_C10_quoted_string.1 ("\x27abc\x27".toList) "abc\x27" [] rfl

end Awql

namespace Awql

/-- Claim C1 (code evaluated at the failing inputs): the bracketed IN list
of the scenario fails with a syntax error naming the opening bracket,
because the parser's scanValueList returns the left-bracket token itself
(its loop assigns a shadowed variable); and a quoted scalar string value
parses with the literal flag true, not false as claimed. -/
theorem claim_C1_literal_flag :
    parseSelect (stateOf
      [⟨.SELECT, "SELECT"⟩, ⟨.IDENTIFIER, "Cost"⟩, ⟨.FROM, "FROM"⟩,
       ⟨.IDENTIFIER, "CAMPAIGN_PERFORMANCE_REPORT"⟩, ⟨.WHERE, "WHERE"⟩,
       ⟨.IDENTIFIER, "CampaignStatus"⟩, ⟨.IN, "IN"⟩,
       ⟨.LEFT_SQUARE_BRACKETS, "["⟩, ⟨.STRING, "ENABLED"⟩, ⟨.COMMA, ","⟩,
       ⟨.STRING, "PAUSED"⟩, ⟨.RIGHT_SQUARE_BRACKETS, "]"⟩]) =
      .error (.synNear "[") ∧
    (parseSelect (mkState "SELECT Cost FROM R WHERE CampaignStatus = \"ENABLED\"")).map
      (fun r => r.1.Where.map (fun c => c.IsValueLiteral)) = .ok [true] := by
  exact ⟨rfl, rfl⟩

/-- Claim C2 (code evaluated at the failing input): the scenario aggregate
call fails, because the close-of-call check errors exactly when it reads
the right parenthesis. -/
theorem claim_C2_aggregate_close :
    parseSelect (mkState "SELECT SUM(DISTINCT Cost) FROM CAMPAIGN_PERFORMANCE_REPORT") =
      .error (.badFunc "DISTINCT") := by
  exact rfl

/-- Claim C3 (code evaluated at the failing input): a two-statement input
returns only the first statement together with the unknown-statement
error, because the end-of-statement check consumes the first token of the
second statement without pushing it back. -/
theorem claim_C3_multi_statement :
    (Parse (stateOf
      [⟨.SELECT, "SELECT"⟩, ⟨.IDENTIFIER, "a"⟩, ⟨.FROM, "FROM"⟩, ⟨.IDENTIFIER, "b"⟩,
       ⟨.SEMICOLON, ";"⟩,
       ⟨.SELECT, "SELECT"⟩, ⟨.IDENTIFIER, "c"⟩, ⟨.FROM, "FROM"⟩, ⟨.IDENTIFIER, "d"⟩])).2 =
      some ParseErr.badStmt ∧
    (Parse (stateOf
      [⟨.SELECT, "SELECT"⟩, ⟨.IDENTIFIER, "a"⟩, ⟨.FROM, "FROM"⟩, ⟨.IDENTIFIER, "b"⟩,
       ⟨.SEMICOLON, ";"⟩,
       ⟨.SELECT, "SELECT"⟩, ⟨.IDENTIFIER, "c"⟩, ⟨.FROM, "FROM"⟩, ⟨.IDENTIFIER, "d"⟩])).1.length = 1 := by
  exact ⟨rfl, rfl⟩

/-- Claim C5 (code evaluated at the failing inputs): the scanner keeps the
closing quote in the STRING literal, so both scenario patterns are
misclassified: the contains pattern becomes a suffix pattern carrying the
stray quote, and the prefix pattern becomes an equal pattern. -/
theorem claim_C5_like_pattern :
    (parseShow (mkState "SHOW TABLES LIKE \x27%NEGATIVE%\x27")).map (fun r => r.1.Like) =
      .ok { Equal := "", PrefValue := "", Contains := "", Suffix := "NEGATIVE%\x27" } ∧
    (parseShow (mkState "SHOW TABLES LIKE \x27CAMPAIGN%\x27")).map (fun r => r.1.Like) =
      .ok { Equal := "CAMPAIGN%\x27", PrefValue := "", Contains := "", Suffix := "" } := by
  exact ⟨rfl, rfl⟩

/-- Claim C6 (code evaluated at the failing input): a parsed literal
condition is formatted quoted (the literal flag logic is inverted), so
reparsing the formatted text flips the flag and garbles the value, while
the field names, table name and During range do round-trip. -/
theorem claim_C6_roundtrip :
    (parseSelect (mkState "SELECT a FROM b WHERE a = 12")).map (fun r => r.1.Where) =
      .ok [{ Col := { ColumnName := "a" }, Operator := "=", Value := ["12"],
             IsValueLiteral := false }] ∧
    (parseSelect (mkState "SELECT a FROM b WHERE a = 12")).map (fun r => SelectString r.1) =
      .ok "SELECT a FROM b WHERE a = \"12\"" ∧
    (parseSelect (mkState "SELECT a FROM b WHERE a = \"12\"")).map (fun r => r.1.Where) =
      .ok [{ Col := { ColumnName := "a" }, Operator := "=", Value := ["12\""],
             IsValueLiteral := true }] ∧
    ([{ Col := { ColumnName := "a" }, Operator := "=", Value := ["12\""],
        IsValueLiteral := true }] : List Condition) ≠
      [{ Col := { ColumnName := "a" }, Operator := "=", Value := ["12"],
         IsValueLiteral := false }] ∧
    (parseSelect (mkState "SELECT a FROM b WHERE a = \"12\"")).map
      (fun r => (r.1.Fields.map (fun f => f.Col.ColumnName), r.1.TableName, r.1.During)) =
      .ok (["a"], "b", []) := by
  refine ⟨rfl, rfl, rfl, by decide, rfl⟩

end Awql
